import Mathlib

/-!
Verification development for the opsync invoice-ingestion pipeline.

The TypeScript / PL/pgSQL sources are shallowly embedded:

* byte buffers (`Buffer`) are `List Nat` (one `Nat` per byte, values < 256);
* JS / SQL strings are `List Char` (ASCII inputs decode identically under
  Node's `utf8` decoding, which is what every claim exercises);
* the database trigger functions become pure Lean functions on row records;
* the Express upload route becomes a pure function threading an explicit
  extraction / parsing oracle, instrumented with flags recording which
  pipeline stages executed.
-/

namespace OpSync

/-! ## Generic character/list helpers (substring and prefix tests) -/

/-- Boolean prefix test on character lists (models JS `startsWith` /
substring anchoring used below). -/
def isPrefixL [BEq α] : List α → List α → Bool
  | [], _ => true
  | _ :: _, [] => false
  | a :: as, b :: bs => a == b && isPrefixL as bs

/-- Boolean substring-containment test (models SQL regex `~ '.*kw.*'`,
JS `String.includes` and `Buffer.includes`). -/
def containsSeq [BEq α] (pat : List α) : List α → Bool
  | [] => pat.isEmpty
  | c :: t => isPrefixL pat (c :: t) || containsSeq pat t

/-- Lowercase a character list (models SQL `LOWER` / JS `toLowerCase` on the
ASCII inputs that occur in this code base). -/
def lowerL (l : List Char) : List Char := l.map Char.toLower

/-! ## SensitivityClassifier
`get_provider_sensitivity` and `mask_provider_name` from
`backend/src/scripts/createTables.ts` (PL/pgSQL functions installed there). -/

inductive Sensitivity where
  | LOW
  | MEDIUM
  | HIGH
deriving DecidableEq, Repr

/-- Keywords of the HIGH branch regex
`'.*(security|defense|military|government|health|medical|bank|finance|crypto|anthropic|openai|claude).*'`. -/
def highKeywords : List (List Char) :=
  ["security", "defense", "military", "government", "health", "medical",
   "bank", "finance", "crypto", "anthropic", "openai", "claude"].map String.toList

/-- Keywords of the MEDIUM branch regex
`'.*(aws|amazon|gcp|google|azure|microsoft|hosting|server|cloud).*'`. -/
def mediumKeywords : List (List Char) :=
  ["aws", "amazon", "gcp", "google", "azure", "microsoft",
   "hosting", "server", "cloud"].map String.toList

/-- Models `get_provider_sensitivity(provider_name)`:
an unanchored POSIX regex match `LOWER(name) ~ '.*(k1|…|kn).*'` holds exactly
when some keyword is a substring of the lowered name. -/
def get_provider_sensitivity (name : List Char) : Sensitivity :=
  if highKeywords.any (fun k => containsSeq k (lowerL name)) then .HIGH
  else if mediumKeywords.any (fun k => containsSeq k (lowerL name)) then .MEDIUM
  else .LOW

/-- Models `mask_provider_name(provider_name, sensitivity_level)`.
`LEFT(s,k)`/`RIGHT(s,k)`/`REPEAT('*',k)` become `take`/`drop`/`replicate`. -/
def mask_provider_name (name : List Char) (lvl : Sensitivity) : List Char :=
  match lvl with
  | .HIGH =>
    if name.length ≤ 3 then ['*', '*', '*']
    else name.take 2 ++ List.replicate (name.length - 3) '*' ++ name.drop (name.length - 1)
  | .MEDIUM =>
    if name.length ≤ 5 then name
    else name.take 3 ++ List.replicate (name.length - 6) '*' ++ name.drop (name.length - 3)
  | .LOW => name

/-! ## RetentionPolicyEngine
`set_expense_retention` trigger from the database initialization script.
Amounts are `DECIMAL(10,2)` values modelled in integer cents; timestamps are
abstract integers, and `created_at + INTERVAL` is kept symbolic as a pair
(base timestamp, interval) since only the interval chosen matters here. -/

inductive RInterval where
  | oneYear
  | days90
deriving DecidableEq, Repr

/-- Retention assignment of the `set_expense_retention` trigger:
`NULL` (permanent) when `amount >= 20000 OR sensitivity_level = 'HIGH'`,
`created_at + '1 year'` when `amount >= 5000`, else `created_at + '90 days'`.
(The trigger's separate `provider_masked_name` assignment is not part of this
function; it is irrelevant to the retention decision.) -/
def set_expense_retention (amountCents : Int) (lvl : Sensitivity) (createdAt : Int) :
    Option (Int × RInterval) :=
  if amountCents ≥ 2000000 ∨ lvl = .HIGH then none
  else if amountCents ≥ 500000 then some (createdAt, .oneYear)
  else some (createdAt, .days90)

/-- The vocabulary of the spec's `RetentionDecision`. -/
inductive Decision where
  | deleteImmediately
  | holdTemporary (i : RInterval)
  | holdPermanent
deriving DecidableEq, Repr

/-- Reading the trigger's `retention_until` column as a spec-level decision:
`NULL` means permanent retention, a timestamp means a temporary hold until
that horizon. -/
def codeDecision (r : Option (Int × RInterval)) : Decision :=
  match r with
  | none => .holdPermanent
  | some (_, i) => .holdTemporary i

/-! ## Expense rows, the `set_expense_defaults` trigger, and the read paths
(`createTables.ts` trigger; `ExpenseModel.findAll` / `ExpenseModel.getStats`
in `backend/src/models/Expense.ts`). -/

inductive FilePolicy where
  | KEEP
  | DELETE
deriving DecidableEq, Repr

/-- The columns of an `expenses` row that the trigger and the read paths
touch.  `provider_name` is a `NOT NULL` column, so it is not optional. -/
structure ExpenseRow where
  provider_name : List Char
  provider_masked_name : Option (List Char)
  amountCents : Int
  sensitivity_level : Sensitivity
  file_id : Option Nat
  file_retention_policy : FilePolicy
deriving DecidableEq, Repr

/-- Column values supplied by the insert paths: sensitivity defaults to
`'LOW'` and no masked name is supplied.  (`ExpenseModel.create` precomputes
`get_provider_sensitivity` and inserts that value instead of `'LOW'`; the
trigger then skips its own recomputation, which yields the same final row as
starting from `'LOW'`.) -/
def mkInsertRow (p : List Char) (amount : Int) (fid : Option Nat) : ExpenseRow :=
  { provider_name := p
    provider_masked_name := none
    amountCents := amount
    sensitivity_level := .LOW
    file_id := fid
    file_retention_policy := .DELETE }

/-- Models `set_expense_defaults()` BEFORE INSERT OR UPDATE trigger:
recomputes sensitivity when it is `'LOW'`, sets the masked name for `'HIGH'`
rows, and sets the file retention policy when a file is attached
(`amount > 1000` with `DECIMAL(10,2)` amounts is `> 100000` cents). -/
def set_expense_defaults (r : ExpenseRow) : ExpenseRow :=
  let s1 := if r.sensitivity_level = .LOW then get_provider_sensitivity r.provider_name
            else r.sensitivity_level
  let masked := if s1 = .HIGH then some (mask_provider_name r.provider_name s1)
                else r.provider_masked_name
  let pol := if r.file_id ≠ none then
               (if s1 = .HIGH ∨ r.amountCents > 100000 then FilePolicy.KEEP else FilePolicy.DELETE)
             else r.file_retention_policy
  { r with sensitivity_level := s1, provider_masked_name := masked,
           file_retention_policy := pol }

/-- The provider columns returned per row by `ExpenseModel.findAll` (its
non-`showMasked` select list names both `provider_name` and
`provider_masked_name`; `showMasked` selects `*`, a superset). -/
def findAll_provider_columns (r : ExpenseRow) : List Char × Option (List Char) :=
  (r.provider_name, r.provider_masked_name)

/-- One top-providers entry of `ExpenseModel.getStats`:
`SELECT provider_name as provider, …, false as is_masked`. -/
structure TopProviderEntry where
  provider : List Char
  is_masked : Bool
deriving DecidableEq, Repr

def getStats_topProviderEntry (r : ExpenseRow) : TopProviderEntry :=
  { provider := r.provider_name, is_masked := false }

/-! ## SecurityScanner — `AntivirusService` (`antivirusService.ts`)

Buffers are `List Nat` (byte values).  `buffer.toString('utf8')` is modelled
as decoding each byte to the character of the same code point, which agrees
with Node for the ASCII data every claim exercises; `toLowerCase` is
`Char.toLower` per character. -/

/-- Decoded text of a byte buffer. -/
def bufferToContent (b : List Nat) : List Char := b.map Char.ofNat

/-- Models `buffer.toString('utf8').toLowerCase()`. -/
def lowerContent (b : List Nat) : List Char := lowerL (bufferToContent b)

/-- UTF-8 bytes of an ASCII string (models `Buffer.from(s, 'utf8')`). -/
def strBytes (s : String) : List Nat := s.toList.map Char.toNat

def hexDigit (n : Nat) : Char :=
  if n < 10 then Char.ofNat (48 + n) else Char.ofNat (87 + n)

/-- Models `buffer.toString('hex')`: two lowercase hex digits per byte. -/
def bytesToHex : List Nat → List Char
  | [] => []
  | b :: t => hexDigit (b / 16 % 16) :: hexDigit (b % 16) :: bytesToHex t

/-! Threat-tag strings, verbatim from the source. -/

def execTag : String := "EXECUTABLE_EMBEDDED: Document contains executable code"
def macroTag (src : String) : String :=
  "MACRO_DETECTED: Suspicious macro or script detected (" ++ src ++ ")"
def suspTag (src : String) : String :=
  "SUSPICIOUS_PATTERN: Potentially malicious pattern detected (" ++ src ++ ")"
def highRiskTag : String := "HIGH_RISK: Multiple suspicious patterns detected"
def sizeAnomalyTag : String := "SIZE_ANOMALY: Image file unusually large for type"
def stegoTag : String :=
  "STEGANOGRAPHY_RISK: Image has high entropy, may contain hidden data"
def scanErrorTag : String := "SCAN_ERROR: Unable to complete security scan"

/-- Models `checkFileSignatures`: hex of the first 16 bytes, searched for the PE and
ELF header hex strings.  (The `maliciousSignatures` array in the source is
declared but never read.) -/
def checkFileSignatures (buf : List Nat) : List String :=
  let header := bytesToHex (buf.take 16)
  if containsSeq "4d5a".toList header || containsSeq "7f454c46".toList header then
    [execTag]
  else []

/-- Models `isPotentialMacroDocument`: declared PDF type, or the raw bytes contain
the literal (lowercase) byte sequences of `'macro'` / `'script'`
(`Buffer.includes` is an exact byte-sequence search). -/
def isPotentialMacroDocument (mime : String) (buf : List Nat) : Bool :=
  mime == "application/pdf" ||
  containsSeq (strBytes "macro") buf ||
  containsSeq (strBytes "script") buf

/-- Models `[a-z]` (the content below is already lowercased, and the regexes carry
the `i` flag, so ASCII lowercase suffices). -/
def isAtoZ (c : Char) : Bool := 'a' ≤ c && c ≤ 'z'

/-- JS regex `\s` on the ASCII range. -/
def isJsWs (c : Char) : Bool :=
  c == ' ' || c == '\t' || c == '\n' || c == '\r' || c == '\x0B' || c == '\x0C'

/-- Models `/\/js[^a-z]/` anchored at the head of a suffix. -/
def matchAtSlashJs : List Char → Bool
  | '/' :: 'j' :: 's' :: c :: _ => !isAtoZ c
  | _ => false

/-- Models `/eval\s*\(/` anchored at the head of a suffix. -/
def matchAtEvalParen : List Char → Bool
  | 'e' :: 'v' :: 'a' :: 'l' :: rest =>
    match rest.dropWhile isJsWs with
    | '(' :: _ => true
    | _ => false
  | _ => false

/-- Models `/macro[a-z]*\s*=/` anchored at the head of a suffix. -/
def matchAtMacroEq : List Char → Bool
  | 'm' :: 'a' :: 'c' :: 'r' :: 'o' :: rest =>
    match (rest.dropWhile isAtoZ).dropWhile isJsWs with
    | '=' :: _ => true
    | _ => false
  | _ => false

/-- An unanchored regex match is a match at the head of some suffix. -/
def existsAtSuffix (p : List Char → Bool) : List Char → Bool
  | [] => p []
  | c :: t => p (c :: t) || existsAtSuffix p t

structure MacroPattern where
  src : String
  hits : List Char → Bool

/-- The `macroPatterns` table with each regex `source` string.  The literal
regexes are substring searches; the three non-literal ones are the anchored
matchers above. -/
def macroPatterns : List MacroPattern :=
  [ ⟨"\\/javascript", containsSeq "/javascript".toList⟩,
    ⟨"\\/js[^a-z]", existsAtSuffix matchAtSlashJs⟩,
    ⟨"activexobject", containsSeq "activexobject".toList⟩,
    ⟨"shell\\.application", containsSeq "shell.application".toList⟩,
    ⟨"wscript\\.shell", containsSeq "wscript.shell".toList⟩,
    ⟨"eval\\s*\\(", existsAtSuffix matchAtEvalParen⟩,
    ⟨"document\\.write", containsSeq "document.write".toList⟩,
    ⟨"fromcharcode", containsSeq "fromcharcode".toList⟩,
    ⟨"vbscript", containsSeq "vbscript".toList⟩,
    ⟨"macro[a-z]*\\s*=", existsAtSuffix matchAtMacroEq⟩ ]

/-- Models `checkForMacros`: each regex is tested once against the lowercased
decoded text, pushing one tag per matching pattern, in table order. -/
def checkForMacros (buf : List Nat) : List String :=
  let content := lowerContent buf
  macroPatterns.filterMap fun p =>
    if p.hits content then some (macroTag p.src) else none

/-- Index of the first occurrence of `pat` (as a prefix of a suffix). -/
def findPrefixIdx [BEq α] (pat : List α) : List α → Option Nat
  | [] => if isPrefixL pat ([] : List α) then some 0 else none
  | c :: t =>
    if isPrefixL pat (c :: t) then some 0 else (findPrefixIdx pat t).map (· + 1)

/-- Models `regex.test(content)` for a `g`-flagged regex object: the search starts
at `lastIndex`; on success `lastIndex` moves past the match, on failure it
resets to 0.  (All thirteen suspicious patterns are literal strings.) -/
def jsTestG (pat content : List Char) (lastIndex : Nat) : Bool × Nat :=
  match (findPrefixIdx pat (content.drop lastIndex)).map (· + lastIndex) with
  | some p => (true, p + pat.length)
  | none => (false, 0)

/-- The `suspiciousPatterns` table: regex `source` string and the literal
character sequence it matches. -/
def suspiciousPatternList : List (String × List Char) :=
  [ ("powershell", "powershell".toList),
    ("cmd\\.exe", "cmd.exe".toList),
    ("rundll32", "rundll32".toList),
    ("regsvr32", "regsvr32".toList),
    ("certutil", "certutil".toList),
    ("bitsadmin", "bitsadmin".toList),
    ("mshta", "mshta".toList),
    ("cscript", "cscript".toList),
    ("wscript", "wscript".toList),
    ("net\\.webclient", "net.webclient".toList),
    ("system\\.diagnostics\\.process", "system.diagnostics.process".toList),
    ("base64", "base64".toList),
    ("frombase64string", "frombase64string".toList) ]

/-- Models `checkSuspiciousPatterns`: the first `for` loop calls `.test` once per
pattern (pushing a tag when it matches and advancing that regex object's
`lastIndex`); the subsequent `filter` calls `.test` *again on the same regex
objects*, so each of those searches resumes at the stored `lastIndex`.
`HIGH_RISK` is appended when the filter count reaches 3. -/
def checkSuspiciousPatterns (buf : List Nat) : List String :=
  let content := lowerContent buf
  let firstPass := suspiciousPatternList.map fun p => (p, jsTestG p.2 content 0)
  let threats := firstPass.filterMap fun x =>
    if x.2.1 then some (suspTag x.1.1) else none
  let second := (firstPass.filter fun x => (jsTestG x.1.2 content x.2.2).1).length
  if 3 ≤ second then threats ++ [highRiskTag] else threats

/-- Integer-exact reformulation of `calculateEntropy(buffer) > 7.5`:
Shannon entropy over the byte histogram exceeds 7.5 bits/byte iff
`n^(2n) > (∏ cᵢ^(2cᵢ)) · 2^(15n)` where `cᵢ` are the byte counts and `n` the
length (both sides are the exact exponentials of twice the compared logs). -/
def entropyGtSevenPointFive (buf : List Nat) : Bool :=
  let n := buf.length
  let counts := (List.range 256).map fun v => buf.count v
  decide ((counts.map fun c => c ^ (2 * c)).prod * 2 ^ (15 * n) < n ^ (2 * n))

/-- Models `checkFileSizeAnomalies`: absolute ceilings per type, plus the entropy
check for images above 10 MiB. -/
def checkFileSizeAnomalies (buf : List Nat) (mime : String) : List String :=
  let size := buf.length
  let t1 := if mime == "image/png" && decide (size > 50 * 1024 * 1024) then
      [sizeAnomalyTag] else []
  let t2 := if mime == "image/jpeg" && decide (size > 100 * 1024 * 1024) then
      [sizeAnomalyTag] else []
  let t3 := if isPrefixL "image/".toList mime.toList && decide (size > 10 * 1024 * 1024) then
      (if entropyGtSevenPointFive buf then [stegoTag] else []) else []
  t1 ++ t2 ++ t3

structure ScanResult where
  isClean : Bool
  threats : List String
  scanTime : Nat
deriving DecidableEq, Repr

/-- The `try` body of `scanFile`: the four checks, tags accumulated in
order. -/
def scanBody (buf : List Nat) (_filename mime : String) : List String :=
  let sigs := checkFileSignatures buf
  let macros := if isPotentialMacroDocument mime buf then checkForMacros buf else []
  let patterns := checkSuspiciousPatterns buf
  let sizes := checkFileSizeAnomalies buf mime
  sigs ++ macros ++ patterns ++ sizes

/-- The `try`/`catch` structure of `scanFile`: a completed body yields
`isClean = threats.length === 0`; a thrown body yields the fail-closed
`SCAN_ERROR` result. -/
def scanWrap (r : Except String (List String)) (t : Nat) : ScanResult :=
  match r with
  | .ok threats => { isClean := threats.isEmpty, threats := threats, scanTime := t }
  | .error _ => { isClean := false, threats := [scanErrorTag], scanTime := t }

/-- Models `AntivirusService.scanFile`.  The body is total in this embedding, so it
always reaches the `.ok` case; wall-clock scan time is modelled as 0. -/
def scanFile (buf : List Nat) (filename mime : String) : ScanResult :=
  scanWrap (.ok (scanBody buf filename mime)) 0

/-- Models `AntivirusService.getSecurityRecommendation`. -/
def getSecurityRecommendation (r : ScanResult) : String :=
  if r.isClean then "File passed security scan - safe to process"
  else if r.threats.length == 1 &&
      (match r.threats with
       | t :: _ => containsSeq "SUSPICIOUS_PATTERN".toList t.toList
       | [] => false) then
    "File contains potentially suspicious content - review before processing"
  else if decide (3 ≤ r.threats.length) ||
      r.threats.any (fun t => containsSeq "HIGH_RISK".toList t.toList) then
    "File contains multiple security threats - DO NOT PROCESS"
  else "File contains security concerns - proceed with caution"

/-! ## FieldParser — amount/currency extraction and `normalizeAmount`
(`parseInvoiceData` helpers in the upload route file).  The date and vendor
heuristics of `parseInvoiceData` are not needed by any claim (they depend on
the external `luxon` library) and are not modelled. -/

def isDigitC (c : Char) : Bool := '0' ≤ c && c ≤ '9'

/-- JS `String.trim` on the ASCII whitespace range. -/
def trimL (l : List Char) : List Char :=
  ((l.dropWhile isJsWs).reverse.dropWhile isJsWs).reverse

/-- Models `/,[0-9]{2}$/` resp. `/\.[0-9]{2}$/`: the third-to-last character is the
separator and the last two are digits. -/
def endsSepDD (sep : Char) (l : List Char) : Bool :=
  match l.reverse with
  | d2 :: d1 :: c :: _ => isDigitC d2 && isDigitC d1 && c == sep
  | _ => false

/-- Models `s.replace(/,/g, (m, off) => off === s.lastIndexOf(',') ? '.' : '')`:
the last comma becomes `'.'`, all earlier commas are removed. -/
def replaceLastCommaRev : List Char → List Char
  | [] => []
  | c :: t =>
    if c == ',' then '.' :: t.filter (fun d => d != ',')
    else c :: replaceLastCommaRev t

def replaceLastComma (l : List Char) : List Char :=
  (replaceLastCommaRev l.reverse).reverse

/-- Models `normalizeAmount(raw)`. -/
def normalizeAmount (raw : List Char) : List Char :=
  let s := trimL raw
  if endsSepDD ',' s && !endsSepDD '.' s then
    replaceLastComma (s.filter (fun c => c != '.'))
  else s.filter (fun c => c != ',')

/-- Models `replace(/[ \t]+/g, ' ')`: every maximal run of spaces/tabs becomes one
space.  The Boolean records whether the previous character was in a run. -/
def collapseSpTab : Bool → List Char → List Char
  | _, [] => []
  | prevSp, c :: t =>
    if c == ' ' || c == '\t' then
      if prevSp then collapseSpTab true t else ' ' :: collapseSpTab true t
    else c :: collapseSpTab false t

/-- Models `rawText.replace(/\r/g, '').replace(/[ \t]+/g, ' ').trim()`. -/
def preprocessText (l : List Char) : List Char :=
  trimL (collapseSpTab false (l.filter (fun c => c != '\r')))

/-- The five symbol alternatives `($|€|£|₪|₪<U+200E>)` in alternation
order (the source's fifth symbol is `'₪'` followed by a LEFT-TO-RIGHT MARK). -/
def currencySymbolsL : List (List Char) :=
  [['$'], ['€'], ['£'], ['₪'], ['₪', '\u200E']]

/-- The code alternatives `(USD|EUR|GBP|ILS|NIS|AUD|CAD)` in order. -/
def currencyCodesL : List (List Char) :=
  ["USD", "EUR", "GBP", "ILS", "NIS", "AUD", "CAD"].map String.toList

/-- Case-insensitive literal match at the head (the regex carries the `i`
flag). -/
def ciStarts (pat l : List Char) : Bool :=
  isPrefixL (lowerL pat) (lowerL (l.take pat.length))

/-- Length of the maximal run of leading digits. -/
def digitRun : List Char → Nat
  | [] => 0
  | c :: t => if isDigitC c then 1 + digitRun t else 0

/-- Maximal repetition count of `(?:[.,][0-9]{3})` at the head. -/
def sepGroupsMax : List Char → Nat
  | s :: d1 :: d2 :: d3 :: rest =>
    if (s == '.' || s == ',') && isDigitC d1 && isDigitC d2 && isDigitC d3 then
      1 + sepGroupsMax rest
    else 0
  | _ => 0

/-- Whether `(?:[.,][0-9]{2})` matches at the head. -/
def sepDD : List Char → Bool
  | s :: d1 :: d2 :: _ => (s == '.' || s == ',') && isDigitC d1 && isDigitC d2
  | _ => false

/-- Greedy match length of the number pattern
`[0-9]{1,3}(?:[.,][0-9]{3})*(?:[.,][0-9]{2})?` at the head.  In the symbol
alternative nothing follows the number, so the regex engine keeps its first
(all-greedy) attempt. -/
def numGreedyLen (l : List Char) : Option Nat :=
  let k := min 3 (digitRun l)
  if k == 0 then none
  else
    let r := sepGroupsMax (l.drop k)
    let p := k + 4 * r
    if sepDD (l.drop p) then some (p + 3) else some p

/-- All match lengths of the number pattern at the head, in the JS
backtracking preference order: more leading digits first; within that, more
group repetitions first; within that, the optional 2-digit tail present
first. -/
def numCandidates (l : List Char) : List Nat :=
  (([3, 2, 1].filter (fun k => k ≤ digitRun l)).map fun k =>
    let m := sepGroupsMax (l.drop k)
    ((List.range (m + 1)).reverse.map fun r =>
      let p := k + 4 * r
      (if sepDD (l.drop p) then [p + 3] else []) ++ [p]).flatten).flatten

/-- First currency code matching (case-insensitively) at the head, returning
the matched source text. -/
def codeMatchAt (l : List Char) : Option (List Char) :=
  currencyCodesL.findSome? fun code =>
    if ciStarts code l then some (l.take code.length) else none

/-- The symbol alternative `(sym)\s*(number)` tried at the head of `l`:
alternation over the five symbols, whitespace skip, then the number.
Returns (matched symbol text, matched number text). -/
def tryAltSymbol (l : List Char) : Option (List Char × List Char) :=
  currencySymbolsL.findSome? fun sym =>
    if isPrefixL sym l then
      let afterWs := (l.drop sym.length).dropWhile isJsWs
      match numGreedyLen afterWs with
      | some n => some (sym, afterWs.take n)
      | none => none
    else none

/-- The code alternative `(number)\s*(code)` tried at the head of `l`:
number candidates in backtracking order, whitespace skip, then the code
alternation.  Returns (matched number text, matched code text). -/
def tryAltCode (l : List Char) : Option (List Char × List Char) :=
  (numCandidates l).findSome? fun n =>
    match codeMatchAt ((l.drop n).dropWhile isJsWs) with
    | some code => some (l.take n, code)
    | none => none

inductive AmountMatch where
  | bySymbol (symbol number : List Char)
  | byCode (number code : List Char)
deriving DecidableEq, Repr

/-- Models `text.match(currencyRegex)`: scan start positions left to right, trying
the symbol alternative before the code alternative at each position. -/
def regexFindAC : List Char → Option AmountMatch
  | [] => none
  | c :: t =>
    match tryAltSymbol (c :: t) with
    | some (s, n) => some (.bySymbol s n)
    | none =>
      match tryAltCode (c :: t) with
      | some (n, cd) => some (.byCode n cd)
      | none => regexFindAC t

/-- Models `symbolToCode(symbol)`. -/
def symbolToCode (s : List Char) : Option (List Char) :=
  if s == ['$'] then some "USD".toList
  else if s == ['€'] then some "EUR".toList
  else if s == ['£'] then some "GBP".toList
  else if s == ['₪'] || s == ['₪', '\u200E'] then some "ILS".toList
  else none

/-- Models `normalizeCurrencyCode(code)`: uppercase, `NIS` → `ILS`. -/
def normalizeCurrencyCode (c : List Char) : List Char :=
  let u := c.map Char.toUpper
  if u == "NIS".toList then "ILS".toList else u

structure ACResult where
  amount : Option (List Char)
  currency : Option (List Char)
deriving DecidableEq, Repr

/-- The amount/currency part of `parseInvoiceData(rawText)`. -/
def parseInvoiceAC (rawText : List Char) : ACResult :=
  match regexFindAC (preprocessText rawText) with
  | some (.bySymbol s n) => ⟨some (normalizeAmount n), symbolToCode s⟩
  | some (.byCode n c) => ⟨some (normalizeAmount n), some (normalizeCurrencyCode c)⟩
  | none => ⟨none, none⟩

/-! ## IngestionOrchestrator — the `POST /api/upload/invoice` handler.
Text extraction (pdf-parse / Tesseract) and field parsing are supplied as
explicit stage functions; the outcome records which stages actually ran. -/

/-- Models `validateFileType(buffer, mimeType)`.  Node's legacy `'ascii'` decoding
strips the high bit of each byte, hence the `% 128`. -/
def validateFileType (buf : List Nat) (mime : String) : Bool :=
  if mime == "application/pdf" then
    (buf.take 4).map (fun b => b % 128) == strBytes "%PDF"
  else if mime == "image/jpeg" || mime == "image/jpg" then
    match buf with
    | b0 :: b1 :: b2 :: _ => b0 == 0xff && b1 == 0xd8 && b2 == 0xff
    | _ => false
  else if mime == "image/png" then
    bytesToHex (buf.take 8) == "89504e470d0a1a0a".toList
  else false

structure UploadFile where
  buffer : List Nat
  originalname : String
  mimetype : String
  size : Nat
deriving DecidableEq, Repr

structure ExtractOut where
  text : String
  engine : String
  ocrConfidence : Option ℚ
deriving DecidableEq, Repr

inductive UploadError where
  | noFile
  | tooLarge
  | invalidFormat
  | scanRejected (msg : String)
  | extractionFailed (msg : String)
  | scannedPdf
  | noText
deriving DecidableEq, Repr

structure InvoiceFields where
  amount : Option String
  currency : Option String
  date : Option String
  vendor : Option String
deriving DecidableEq, Repr

structure UploadResponse where
  engine : String
  confidence : Option ℚ
  textPreview : String
  extractedData : InvoiceFields
deriving DecidableEq, Repr

instance [DecidableEq ε] [DecidableEq α] : DecidableEq (Except ε α) := fun x y =>
  match x, y with
  | .error a, .error b =>
    if h : a = b then .isTrue (by rw [h]) else .isFalse (fun hc => h (Except.error.inj hc))
  | .ok a, .ok b =>
    if h : a = b then .isTrue (by rw [h]) else .isFalse (fun hc => h (Except.ok.inj hc))
  | .error _, .ok _ => .isFalse (fun hc => Except.noConfusion hc)
  | .ok _, .error _ => .isFalse (fun hc => Except.noConfusion hc)

structure UploadOutcome where
  result : Except UploadError UploadResponse
  ranExtraction : Bool
  ranParsing : Bool
deriving DecidableEq, Repr

/-- Models `!text || !text.trim()`: the extracted text is empty or all whitespace. -/
def textIsBlank (s : String) : Bool := s.toList.all isJsWs

/-- The upload handler, stage by stage: missing file, size ceiling, magic
bytes, antivirus scan, extraction, blank-text check, field parsing,
response.  `extract` and `parse` are the extraction/parsing stage functions
(external libraries in the source); the two Booleans record whether those
stages were invoked. -/
def processUpload (extract : List Nat → String → Except String ExtractOut)
    (parse : String → InvoiceFields) (maxBytes textPreviewLimit : Nat)
    (file? : Option UploadFile) : UploadOutcome :=
  match file? with
  | none => ⟨.error .noFile, false, false⟩
  | some file =>
    if file.size > maxBytes then ⟨.error .tooLarge, false, false⟩
    else if !validateFileType file.buffer file.mimetype then
      ⟨.error .invalidFormat, false, false⟩
    else
      let scanResult := scanFile file.buffer file.originalname file.mimetype
      if !scanResult.isClean then
        ⟨.error (.scanRejected
          ("Security scan failed: " ++ String.intercalate ", " scanResult.threats ++
           ". " ++ getSecurityRecommendation scanResult)), false, false⟩
      else
        match extract file.buffer file.mimetype with
        | .error e => ⟨.error (.extractionFailed ("Extraction failed: " ++ e)), true, false⟩
        | .ok out =>
          if textIsBlank out.text then
            if file.mimetype == "application/pdf" then ⟨.error .scannedPdf, true, false⟩
            else ⟨.error .noText, true, false⟩
          else
            let extractedData := parse out.text
            let preview :=
              if out.text.length > textPreviewLimit then
                out.text.take textPreviewLimit ++ "…"
              else out.text
            ⟨.ok ⟨out.engine, out.ocrConfidence, preview, extractedData⟩, true, true⟩

/-! ## Theorems -/

/-! ### Helper lemmas for the substring primitives -/

theorem isPrefixL_iff [BEq α] [LawfulBEq α] (p l : List α) :
    isPrefixL p l = true ↔ ∃ t, p ++ t = l := by
  induction p generalizing l with
  | nil => simp [isPrefixL]
  | cons a as ih =>
    cases l with
    | nil => simp [isPrefixL]
    | cons b bs =>
      simp only [isPrefixL, Bool.and_eq_true, beq_iff_eq, ih]
      constructor
      · rintro ⟨rfl, t, rfl⟩; exact ⟨t, rfl⟩
      · rintro ⟨t, h⟩
        injection h with h1 h2
        exact ⟨h1, t, h2⟩

theorem isPrefixL_self_append [BEq α] [LawfulBEq α] (p t : List α) :
    isPrefixL p (p ++ t) = true :=
  (isPrefixL_iff p (p ++ t)).2 ⟨t, rfl⟩

theorem containsSeq_iff [BEq α] [LawfulBEq α] (pat l : List α) :
    containsSeq pat l = true ↔ ∃ s t, s ++ pat ++ t = l := by
  induction l with
  | nil =>
    simp only [containsSeq, List.isEmpty_iff]
    constructor
    · rintro rfl; exact ⟨[], [], rfl⟩
    · rintro ⟨s, t, h⟩
      rcases List.append_eq_nil.1 h with ⟨h1, h2⟩
      exact (List.append_eq_nil.1 h1).2
  | cons c cs ih =>
    simp only [containsSeq, Bool.or_eq_true, isPrefixL_iff, ih]
    constructor
    · rintro (⟨t, h⟩ | ⟨s, t, h⟩)
      · exact ⟨[], t, by simpa using h⟩
      · exact ⟨c :: s, t, by simp [h]⟩
    · rintro ⟨s, t, h⟩
      cases s with
      | nil => exact Or.inl ⟨t, by simpa using h⟩
      | cons x xs =>
        injection h with h1 h2
        exact Or.inr ⟨xs, t, h2⟩

theorem bytesToHex_append (a b : List Nat) :
    bytesToHex (a ++ b) = bytesToHex a ++ bytesToHex b := by
  induction a with
  | nil => rfl
  | cons x xs ih => simp [bytesToHex, ih]

/-! ### C1 — retention decision -/

/-- C1 counterexample: the claim says `decide(4999.99, LOW, t) =
DELETE_IMMEDIATELY`, but `set_expense_retention` assigns a 90-day retention
horizon (`retention_until = created_at + INTERVAL '90 days'`) to every
below-5000 row — a temporary hold, not an immediate delete. -/
theorem retention_small_amount_is_90day_hold :
    codeDecision (set_expense_retention 499999 .LOW 0) = .holdTemporary .days90 ∧
    codeDecision (set_expense_retention 499999 .LOW 0) ≠ .deleteImmediately := by
  decide

/-- C1 (amended): the retention decision depends only on amount and
sensitivity, in rule order: HIGH ⇒ permanent for every amount; for LOW,
amount ≥ 20000 ⇒ permanent, 5000 ≤ amount < 20000 ⇒ a 1-year hold from
creation, and amount < 5000 ⇒ a 90-day hold from creation (not immediate
deletion); boundaries: 4999.99 ⇒ 90-day hold, 5000 ⇒ 1-year hold,
20000 ⇒ permanent.  Amounts are in cents. -/
theorem set_expense_retention_cases (a b c d t : Int) :
    codeDecision (set_expense_retention a .HIGH t) = .holdPermanent ∧
    (2000000 ≤ b → codeDecision (set_expense_retention b .LOW t) = .holdPermanent) ∧
    (500000 ≤ c → c < 2000000 →
      codeDecision (set_expense_retention c .LOW t) = .holdTemporary .oneYear) ∧
    (d < 500000 → codeDecision (set_expense_retention d .LOW t) = .holdTemporary .days90) ∧
    codeDecision (set_expense_retention 499999 .LOW t) = .holdTemporary .days90 ∧
    codeDecision (set_expense_retention 500000 .LOW t) = .holdTemporary .oneYear ∧
    codeDecision (set_expense_retention 2000000 .LOW t) = .holdPermanent := by
  unfold set_expense_retention codeDecision
  refine ⟨?_, fun h => ?_, fun h1 h2 => ?_, fun h => ?_, ?_, ?_, ?_⟩ <;>
    split_ifs <;> simp_all <;> omega

theorem set_expense_retention_cases_witness :
    ((2000000 : Int) ≤ 2000000 ∧ (500000 : Int) ≤ 600000 ∧
      (600000 : Int) < 2000000 ∧ (499999 : Int) < 500000) ∧
    codeDecision (set_expense_retention 0 .HIGH 0) = .holdPermanent ∧
    codeDecision (set_expense_retention 2000000 .LOW 0) = .holdPermanent ∧
    codeDecision (set_expense_retention 600000 .LOW 0) = .holdTemporary .oneYear ∧
    codeDecision (set_expense_retention 499999 .LOW 0) = .holdTemporary .days90 := by
  have h := set_expense_retention_cases 0 2000000 600000 499999 0
  exact ⟨by norm_num, h.1, h.2.1 (by norm_num), h.2.2.1 (by norm_num) (by norm_num),
    h.2.2.2.1 (by norm_num)⟩

/-! ### C2 — HIGH-keyword classification and masking -/

/-- Every HIGH keyword is at least 4 characters long and contains no `'*'`. -/
theorem highKeywords_star_free :
    ∀ k ∈ highKeywords, List.countP (fun c => c != '*') k = k.length ∧ 4 ≤ k.length := by
  decide

/-- C2: a vendor name containing a HIGH keyword (case-insensitively)
classifies HIGH; a name of length ≤ 3 masks to `***`; a longer name masks to
first-2 + stars + last-1, which always differs from the original name. -/
theorem classify_high_keyword_and_mask (name : List Char)
    (h : highKeywords.any (fun k => containsSeq k (lowerL name)) = true) :
    get_provider_sensitivity name = .HIGH ∧
    (name.length ≤ 3 → mask_provider_name name .HIGH = ['*', '*', '*']) ∧
    (3 < name.length →
      mask_provider_name name .HIGH =
        name.take 2 ++ List.replicate (name.length - 3) '*' ++
          name.drop (name.length - 1) ∧
      mask_provider_name name .HIGH ≠ name) := by
  refine ⟨by simp [get_provider_sensitivity, h], fun hle => by simp [mask_provider_name, hle], ?_⟩
  intro hlt
  have hmask : mask_provider_name name .HIGH =
      name.take 2 ++ List.replicate (name.length - 3) '*' ++
        name.drop (name.length - 1) := by
    simp [mask_provider_name, Nat.not_le.2 hlt]
  refine ⟨hmask, ?_⟩
  intro heq
  rw [hmask] at heq
  rw [List.any_eq_true] at h
  obtain ⟨k, hk, hcat⟩ := h
  obtain ⟨s, t, hst⟩ := (containsSeq_iff k (lowerL name)).1 hcat
  have hstar : Char.toLower '*' = '*' := by decide
  have hlow : lowerL name =
      lowerL (name.take 2) ++ List.replicate (name.length - 3) '*' ++
        lowerL (name.drop (name.length - 1)) := by
    conv_lhs => rw [← heq]
    simp [lowerL, List.map_append, List.map_replicate, hstar]
  have h1 : List.countP (fun c => c != '*') (lowerL (name.take 2)) ≤ 2 := by
    refine le_trans (List.countP_le_length _) ?_
    simp only [lowerL, List.length_map, List.length_take]
    omega
  have h2 : List.countP (fun c => c != '*') (List.replicate (name.length - 3) '*') = 0 := by
    rw [List.countP_eq_zero]
    intro a ha
    rw [List.eq_of_mem_replicate ha]
    decide
  have h3 : List.countP (fun c => c != '*') (lowerL (name.drop (name.length - 1))) ≤ 1 := by
    refine le_trans (List.countP_le_length _) ?_
    simp only [lowerL, List.length_map, List.length_drop]
    omega
  have hcountname : List.countP (fun c => c != '*') (lowerL name) ≤ 3 := by
    rw [hlow, List.countP_append, List.countP_append]
    omega
  have hkfacts := highKeywords_star_free k hk
  have hge : k.length ≤ List.countP (fun c => c != '*') (lowerL name) := by
    rw [← hst, List.countP_append, List.countP_append]
    omega
  omega

theorem classify_high_keyword_and_mask_witness :
    highKeywords.any (fun k => containsSeq k (lowerL "Anthropic".toList)) = true ∧
    (get_provider_sensitivity "Anthropic".toList = .HIGH ∧
     ("Anthropic".toList.length ≤ 3 →
       mask_provider_name "Anthropic".toList .HIGH = ['*', '*', '*']) ∧
     (3 < "Anthropic".toList.length →
       mask_provider_name "Anthropic".toList .HIGH =
         "Anthropic".toList.take 2 ++
           List.replicate ("Anthropic".toList.length - 3) '*' ++
           "Anthropic".toList.drop ("Anthropic".toList.length - 1) ∧
       mask_provider_name "Anthropic".toList .HIGH ≠ "Anthropic".toList)) :=
  ⟨by decide, classify_high_keyword_and_mask "Anthropic".toList (by decide)⟩

/-! ### C3 — read paths and masking -/

/-- C3 counterexample: a HIGH row inserted for vendor "Anthropic" has its
masked name stored, yet the top-providers statistics return the raw
`provider_name` ("Anthropic" unmasked, `is_masked = false`), and `findAll`
also returns the raw `provider_name` column. -/
theorem stats_expose_unmasked_high_provider :
    (set_expense_defaults (mkInsertRow "Anthropic".toList 120000 none)).sensitivity_level
      = .HIGH ∧
    (set_expense_defaults (mkInsertRow "Anthropic".toList 120000 none)).provider_masked_name
      = some (mask_provider_name "Anthropic".toList .HIGH) ∧
    (getStats_topProviderEntry
        (set_expense_defaults (mkInsertRow "Anthropic".toList 120000 none))).provider
      = "Anthropic".toList ∧
    (getStats_topProviderEntry
        (set_expense_defaults (mkInsertRow "Anthropic".toList 120000 none))).is_masked
      = false ∧
    (getStats_topProviderEntry
        (set_expense_defaults (mkInsertRow "Anthropic".toList 120000 none))).provider
      ≠ mask_provider_name "Anthropic".toList .HIGH ∧
    (findAll_provider_columns
        (set_expense_defaults (mkInsertRow "Anthropic".toList 120000 none))).1
      = "Anthropic".toList := by
  decide

/-- C3 (amended): the read paths return the raw `provider_name` regardless
of sensitivity: for a HIGH row the masked name is stored in
`provider_masked_name` but `getStats`' top-providers output and `findAll`'s
`provider_name` column expose the unmasked original; a LOW row is returned
unmasked with no masked name stored. -/
theorem read_paths_return_raw_provider (p q : List Char) (a b : Int)
    (f g : Option Nat)
    (hp : get_provider_sensitivity p = .HIGH)
    (hq : get_provider_sensitivity q = .LOW) :
    ((set_expense_defaults (mkInsertRow p a f)).sensitivity_level = .HIGH ∧
     (set_expense_defaults (mkInsertRow p a f)).provider_masked_name
       = some (mask_provider_name p .HIGH) ∧
     (getStats_topProviderEntry (set_expense_defaults (mkInsertRow p a f))).provider = p ∧
     (getStats_topProviderEntry (set_expense_defaults (mkInsertRow p a f))).is_masked
       = false ∧
     (findAll_provider_columns (set_expense_defaults (mkInsertRow p a f))).1 = p) ∧
    ((set_expense_defaults (mkInsertRow q b g)).sensitivity_level = .LOW ∧
     (set_expense_defaults (mkInsertRow q b g)).provider_masked_name = none ∧
     (getStats_topProviderEntry (set_expense_defaults (mkInsertRow q b g))).provider = q ∧
     (findAll_provider_columns (set_expense_defaults (mkInsertRow q b g))).1 = q) := by
  constructor
  · simp [set_expense_defaults, mkInsertRow, getStats_topProviderEntry,
      findAll_provider_columns, hp]
  · simp [set_expense_defaults, mkInsertRow, getStats_topProviderEntry,
      findAll_provider_columns, hq]

theorem read_paths_return_raw_provider_witness :
    (get_provider_sensitivity "Anthropic".toList = .HIGH ∧
     get_provider_sensitivity "Slack".toList = .LOW) ∧
    (getStats_topProviderEntry
        (set_expense_defaults (mkInsertRow "Anthropic".toList 120000 none))).provider
      = "Anthropic".toList ∧
    (getStats_topProviderEntry
        (set_expense_defaults (mkInsertRow "Slack".toList 4500 none))).provider
      = "Slack".toList :=
  ⟨⟨by decide, by decide⟩,
   (read_paths_return_raw_provider "Anthropic".toList "Slack".toList 120000 4500
      none none (by decide) (by decide)).1.2.2.1,
   (read_paths_return_raw_provider "Anthropic".toList "Slack".toList 120000 4500
      none none (by decide) (by decide)).2.2.2.1⟩

/-! ### C4 — unclean scans carry tags and block downstream stages -/

/-- C4: a scan result is clean exactly when its threat list is empty (this
holds for completed scan bodies and for the fail-closed catch result alike),
and when the scan of an uploaded file is unclean the upload handler runs
neither the extraction stage nor the parsing stage. -/
theorem unclean_scan_blocks_downstream :
    (∀ (r : Except String (List String)) (t : Nat),
      (scanWrap r t).isClean = true ↔ (scanWrap r t).threats = []) ∧
    (∀ (extract : List Nat → String → Except String ExtractOut)
        (parse : String → InvoiceFields) (mx lim : Nat) (f : UploadFile),
      (scanFile f.buffer f.originalname f.mimetype).isClean = false →
      (processUpload extract parse mx lim (some f)).ranExtraction = false ∧
      (processUpload extract parse mx lim (some f)).ranParsing = false) := by
  constructor
  · intro r t
    cases r with
    | ok th => simp [scanWrap, List.isEmpty_iff]
    | error e => simp [scanWrap, scanErrorTag]
  · intro extract parse mx lim f h
    have hcond : (!(scanFile f.buffer f.originalname f.mimetype).isClean) = true := by
      rw [h]; rfl
    simp only [processUpload, hcond]
    split_ifs <;> simp

theorem unclean_scan_blocks_downstream_witness :
    (scanFile (strBytes "%PDF-1.4 powershell") "inv.pdf" "application/pdf").isClean
      = false ∧
    ((processUpload (fun _ _ => .ok ⟨"text", "pdf-parse", none⟩)
        (fun _ => ⟨none, none, none, none⟩) 10485760 5000
        (some ⟨strBytes "%PDF-1.4 powershell", "inv.pdf", "application/pdf", 19⟩)).ranExtraction
      = false ∧
     (processUpload (fun _ _ => .ok ⟨"text", "pdf-parse", none⟩)
        (fun _ => ⟨none, none, none, none⟩) 10485760 5000
        (some ⟨strBytes "%PDF-1.4 powershell", "inv.pdf", "application/pdf", 19⟩)).ranParsing
      = false) :=
  ⟨by decide,
   unclean_scan_blocks_downstream.2 (fun _ _ => .ok ⟨"text", "pdf-parse", none⟩)
     (fun _ => ⟨none, none, none, none⟩) 10485760 5000
     ⟨strBytes "%PDF-1.4 powershell", "inv.pdf", "application/pdf", 19⟩ (by decide)⟩

/-! ### C5 — fail-closed scanner -/

/-- C5: the `try`/`catch` wrapper of `scanFile` never reports an internal
failure as clean: an errored scan body yields `isClean = false` with the
synthetic `SCAN_ERROR` tag, and a clean result can only arise from a
completed body.  (`scanFile` itself is a total function in this embedding —
the catch branch is exactly `scanWrap` applied to an errored body.) -/
theorem scan_fail_closed :
    (∀ (e : String) (t : Nat),
      (scanWrap (.error e) t).isClean = false ∧
      scanErrorTag ∈ (scanWrap (.error e) t).threats) ∧
    (∀ (r : Except String (List String)) (t : Nat),
      (scanWrap r t).isClean = true → ∃ th, r = .ok th) := by
  constructor
  · intro e t
    exact ⟨rfl, by simp [scanWrap]⟩
  · intro r t h
    cases r with
    | ok th => exact ⟨th, rfl⟩
    | error e => simp [scanWrap] at h

theorem scan_fail_closed_witness :
    ((scanWrap (.ok []) 0).isClean = true ∧
      ∃ th, (Except.ok [] : Except String (List String)) = .ok th) ∧
    (scanWrap (.error "malformed buffer") 0).isClean = false ∧
    scanErrorTag ∈ (scanWrap (.error "malformed buffer") 0).threats :=
  ⟨⟨by decide, scan_fail_closed.2 (.ok []) 0 (by decide)⟩,
   (scan_fail_closed.1 "malformed buffer" 0).1,
   (scan_fail_closed.1 "malformed buffer" 0).2⟩

/-! ### C6 — HIGH_RISK escalation -/

/-- C6 (code defect): for a buffer in which the three patterns
`powershell`, `cmd.exe` and `rundll32` each occur exactly once, the first
pass pushes three `SUSPICIOUS_PATTERN` tags, yet *no* `HIGH_RISK` tag is
emitted: the `filter` re-tests the same `g`-flagged regex objects, whose
searches resume at the stored `lastIndex` and find no second occurrence.
When each pattern occurs twice, the escalation does fire (third conjunct),
confirming the `lastIndex` mechanism. -/
theorem three_patterns_once_no_high_risk :
    checkSuspiciousPatterns (strBytes "powershell cmd.exe rundll32") =
      [suspTag "powershell", suspTag "cmd\\.exe", suspTag "rundll32"] ∧
    highRiskTag ∉ checkSuspiciousPatterns (strBytes "powershell cmd.exe rundll32") ∧
    checkSuspiciousPatterns
        (strBytes "powershell powershell cmd.exe cmd.exe rundll32 rundll32") =
      [suspTag "powershell", suspTag "cmd\\.exe", suspTag "rundll32", highRiskTag] := by
  decide

/-! ### C7 — embedded PE header detection -/

/-- C7 counterexample: a buffer that is an otherwise valid PDF (it begins
with `%PDF`) and contains the literal PE header bytes `MZ` — at offset 16,
just beyond the 16-byte window `checkFileSignatures` converts to hex —
scans fully clean, with no `EXECUTABLE_EMBEDDED` tag. -/
theorem embedded_mz_beyond_16_bytes_undetected :
    containsSeq (strBytes "MZ") (strBytes "%PDF-1.4 abcdefgMZ") = true ∧
    execTag ∉ (scanFile (strBytes "%PDF-1.4 abcdefgMZ") "f.pdf" "application/pdf").threats ∧
    (scanFile (strBytes "%PDF-1.4 abcdefgMZ") "f.pdf" "application/pdf").isClean = true := by
  decide

/-- C7 (amended): the signature check inspects only the hex dump of the
first 16 bytes; whenever the bytes `4D 5A` occur entirely within the first
16 bytes of the buffer, the scan reports `EXECUTABLE_EMBEDDED` and is
unclean.  (Occurrences of `MZ` beyond that window go undetected, per the
counterexample.) -/
theorem mz_within_first16_detected (buf pre post : List Nat)
    (hbuf : buf = pre ++ [0x4d, 0x5a] ++ post) (hpre : pre.length ≤ 14)
    (f m : String) :
    execTag ∈ (scanFile buf f m).threats ∧ (scanFile buf f m).isClean = false := by
  have htake : buf.take 16 = pre ++ [0x4d, 0x5a] ++ post.take (14 - pre.length) := by
    subst hbuf
    rw [List.append_assoc, List.take_append_eq_append_take,
      List.take_of_length_le (le_trans hpre (by norm_num)),
      List.take_append_eq_append_take]
    have h2 : ((16 - pre.length) : Nat) - 2 = 14 - pre.length := by omega
    have h3 : ([0x4d, 0x5a] : List Nat).take (16 - pre.length) = [0x4d, 0x5a] := by
      refine List.take_of_length_le ?_
      simp
      omega
    rw [h3]
    simp [h2]
  have hhex : containsSeq "4d5a".toList (bytesToHex (buf.take 16)) = true := by
    rw [htake, bytesToHex_append, bytesToHex_append]
    refine (containsSeq_iff _ _).2 ⟨bytesToHex pre, bytesToHex (post.take (14 - pre.length)), ?_⟩
    have : bytesToHex [0x4d, 0x5a] = "4d5a".toList := by decide
    rw [← this, List.append_assoc]
  have hsig : checkFileSignatures buf = [execTag] := by
    simp only [checkFileSignatures]
    rw [hhex]
    rfl
  have hmem : execTag ∈ scanBody buf f m := by
    unfold scanBody
    rw [hsig]
    exact List.mem_append_left _ (List.mem_append_left _
      (List.mem_append_left _ (List.mem_singleton_self _)))
  constructor
  · exact hmem
  · show (scanBody buf f m).isEmpty = false
    cases hc : (scanBody buf f m).isEmpty
    · rfl
    · exact absurd (List.isEmpty_iff.1 hc ▸ hmem) (List.not_mem_nil _)

theorem mz_within_first16_detected_witness :
    (strBytes "%PDF" ++ [0x4d, 0x5a] ++ strBytes "0123456789" =
        strBytes "%PDF" ++ [0x4d, 0x5a] ++ strBytes "0123456789" ∧
      (strBytes "%PDF").length ≤ 14) ∧
    execTag ∈ (scanFile (strBytes "%PDF" ++ [0x4d, 0x5a] ++ strBytes "0123456789")
        "f.pdf" "application/pdf").threats ∧
    (scanFile (strBytes "%PDF" ++ [0x4d, 0x5a] ++ strBytes "0123456789")
        "f.pdf" "application/pdf").isClean = false :=
  ⟨⟨rfl, by decide⟩,
   (mz_within_first16_detected _ _ _ rfl (by decide) "f.pdf" "application/pdf").1,
   (mz_within_first16_detected _ _ _ rfl (by decide) "f.pdf" "application/pdf").2⟩

/-! ### C8 — amount normalization -/

theorem isDigitC_ne_sep (c : Char) (h : isDigitC c = true) :
    (c != '.') = true ∧ (c != ',') = true := by
  unfold isDigitC at h
  rw [Bool.and_eq_true, decide_eq_true_eq, decide_eq_true_eq] at h
  obtain ⟨h1, _⟩ := h
  constructor <;> (rw [bne_iff_ne]; rintro rfl; revert h1; decide)

theorem replaceLastCommaRev_through (L R : List Char)
    (hL : ∀ c ∈ L, (c == ',') = false) :
    replaceLastCommaRev (L ++ ',' :: R) = L ++ '.' :: R.filter (fun d => d != ',') := by
  induction L with
  | nil => simp [replaceLastCommaRev]
  | cons c t ih =>
    have hc := hL c (List.mem_cons_self c t)
    simp [replaceLastCommaRev, hc, ih fun d hd => hL d (List.mem_cons_of_mem _ hd)]

theorem replaceLastComma_append (A B : List Char)
    (hB : ∀ c ∈ B, (c == ',') = false) :
    replaceLastComma (A ++ ',' :: B) = A.filter (fun c => c != ',') ++ '.' :: B := by
  unfold replaceLastComma
  have hrev : (A ++ ',' :: B).reverse = B.reverse ++ ',' :: A.reverse := by
    simp [List.reverse_append]
  rw [hrev, replaceLastCommaRev_through _ _ fun c hc => hB c (List.mem_reverse.1 hc)]
  simp [List.reverse_append, List.filter_reverse]

/-- C8: `normalizeAmount` sends `"1,234.56"` and `"1.234,56"` to
`"1234.56"` and `"99,00"` to `"99.00"`; in general, when the trimmed input
ends in a comma followed by two digits, periods are removed and the final
comma becomes the decimal point (with any earlier commas dropped — the EU
rule); otherwise commas are removed (the US rule; in particular whenever the
input does not end in comma-digit-digit, or does end in
period-digit-digit). -/
theorem normalizeAmount_spec :
    (normalizeAmount "1,234.56".toList = "1234.56".toList ∧
     normalizeAmount "1.234,56".toList = "1234.56".toList ∧
     normalizeAmount "99,00".toList = "99.00".toList) ∧
    (∀ (s pre : List Char) (d1 d2 : Char),
      trimL s = pre ++ [',', d1, d2] → isDigitC d1 = true → isDigitC d2 = true →
      normalizeAmount s =
        (pre.filter (fun c => c != '.')).filter (fun c => c != ',') ++ ['.', d1, d2]) ∧
    (∀ s : List Char, endsSepDD ',' (trimL s) = false →
      normalizeAmount s = (trimL s).filter (fun c => c != ',')) ∧
    (∀ s : List Char, endsSepDD '.' (trimL s) = true →
      normalizeAmount s = (trimL s).filter (fun c => c != ',')) := by
  refine ⟨by decide, ?_, ?_, ?_⟩
  · intro s pre d1 d2 hs h1 h2
    obtain ⟨hd1dot, hd1com⟩ := isDigitC_ne_sep d1 h1
    obtain ⟨hd2dot, hd2com⟩ := isDigitC_ne_sep d2 h2
    have hcomma : endsSepDD ',' (trimL s) = true := by
      rw [hs]
      unfold endsSepDD
      simp [List.reverse_append, h1, h2]
    have hdot : endsSepDD '.' (trimL s) = false := by
      rw [hs]
      unfold endsSepDD
      simp [List.reverse_append]
    simp only [normalizeAmount, hcomma, hdot, Bool.not_false, Bool.and_true, if_true]
    rw [hs, List.filter_append]
    have hfil : List.filter (fun c => c != '.') [',', d1, d2] = ',' :: [d1, d2] := by
      simp [List.filter, hd1dot, hd2dot]
    rw [hfil, replaceLastComma_append _ [d1, d2] ?hb]
    case hb =>
      intro c hc
      rcases List.mem_cons.1 hc with rfl | hc2
      · rw [beq_eq_false_iff_ne]
        exact bne_iff_ne.1 hd1com
      · rcases List.mem_cons.1 hc2 with rfl | hc3
        · rw [beq_eq_false_iff_ne]
          exact bne_iff_ne.1 hd2com
        · exact absurd hc3 (List.not_mem_nil c)
  · intro s h
    simp [normalizeAmount, h]
  · intro s h
    simp [normalizeAmount, h]

theorem normalizeAmount_spec_witness :
    (trimL "1.234,56".toList = "1.234".toList ++ [',', '5', '6'] ∧
     isDigitC '5' = true ∧ isDigitC '6' = true ∧
     endsSepDD ',' (trimL "1,234.56".toList) = false ∧
     endsSepDD '.' (trimL "5.00".toList) = true) ∧
    normalizeAmount "1.234,56".toList =
      ("1.234".toList.filter (fun c => c != '.')).filter (fun c => c != ',') ++
        ['.', '5', '6'] ∧
    normalizeAmount "1,234.56".toList =
      (trimL "1,234.56".toList).filter (fun c => c != ',') ∧
    normalizeAmount "5.00".toList = (trimL "5.00".toList).filter (fun c => c != ',') :=
  ⟨by decide,
   normalizeAmount_spec.2.1 "1.234,56".toList "1.234".toList '5' '6'
     (by decide) (by decide) (by decide),
   normalizeAmount_spec.2.2.1 "1,234.56".toList (by decide),
   normalizeAmount_spec.2.2.2 "5.00".toList (by decide)⟩

/-! ### C9 — macro/script detection gate and tags -/

/-- C9 counterexample: the buffer "VBSCRIPT ACTIVEXOBJECT" (declared
image/png) contains `script` case-insensitively, and its lowercased text
matches two macro patterns — so per the claim the macro check should run
and emit `MACRO_DETECTED` tags — but `Buffer.includes` is a case-sensitive
byte search, the gate is false, and the scan comes back entirely clean. -/
theorem uppercase_script_skips_macro_check :
    isPotentialMacroDocument "image/png" (strBytes "VBSCRIPT ACTIVEXOBJECT") = false ∧
    containsSeq "script".toList (lowerContent (strBytes "VBSCRIPT ACTIVEXOBJECT")) = true ∧
    checkForMacros (strBytes "VBSCRIPT ACTIVEXOBJECT") ≠ [] ∧
    (scanFile (strBytes "VBSCRIPT ACTIVEXOBJECT") "f.png" "image/png").threats = [] ∧
    (scanFile (strBytes "VBSCRIPT ACTIVEXOBJECT") "f.png" "image/png").isClean = true := by
  decide

/-- Every tag produced by `checkSuspiciousPatterns` is one of the thirteen
`SUSPICIOUS_PATTERN` tags or `HIGH_RISK`. -/
theorem checkSuspiciousPatterns_tags_mem (buf : List Nat) :
    ∀ t ∈ checkSuspiciousPatterns buf,
      t ∈ suspiciousPatternList.map (fun p => suspTag p.1) ++ [highRiskTag] := by
  intro t ht
  have hsub : ∀ u ∈ (suspiciousPatternList.map fun p =>
      (p, jsTestG p.2 (lowerContent buf) 0)).filterMap
        (fun x => if x.2.1 then some (suspTag x.1.1) else none),
      u ∈ suspiciousPatternList.map fun p => suspTag p.1 := by
    intro u hu
    obtain ⟨x, hx, hfx⟩ := List.mem_filterMap.1 hu
    obtain ⟨p, hp, rfl⟩ := List.mem_map.1 hx
    rw [List.mem_map]
    by_cases hb : (jsTestG p.2 (lowerContent buf) 0).1 = true
    · rw [if_pos hb] at hfx
      exact ⟨p, hp, Option.some.inj hfx⟩
    · rw [if_neg hb] at hfx
      exact absurd hfx (by simp)
  simp only [checkSuspiciousPatterns] at ht
  split at ht
  · rcases List.mem_append.1 ht with h | h
    · exact List.mem_append_left _ (hsub t h)
    · exact List.mem_append_right _ h
  · exact List.mem_append_left _ (hsub t ht)

/-- Every tag produced by `checkForMacros` is the `MACRO_DETECTED` tag of
one of the ten patterns. -/
theorem checkForMacros_tags_mem (buf : List Nat) :
    ∀ t ∈ checkForMacros buf, t ∈ macroPatterns.map fun p => macroTag p.src := by
  intro t ht
  simp only [checkForMacros] at ht
  obtain ⟨p, hp, hfp⟩ := List.mem_filterMap.1 ht
  rw [List.mem_map]
  by_cases hb : p.hits (lowerContent buf) = true
  · rw [if_pos hb] at hfp
    exact ⟨p, hp, Option.some.inj hfp⟩
  · rw [if_neg hb] at hfp
    exact absurd hfp (by simp)

theorem checkFileSignatures_tags_mem (buf : List Nat) :
    ∀ t ∈ checkFileSignatures buf, t = execTag := by
  intro t ht
  simp only [checkFileSignatures] at ht
  split at ht <;> simp_all

theorem checkFileSizeAnomalies_tags_mem (buf : List Nat) (m : String) :
    ∀ t ∈ checkFileSizeAnomalies buf m, t ∈ [sizeAnomalyTag, stegoTag] := by
  intro t ht
  simp only [checkFileSizeAnomalies] at ht
  rcases List.mem_append.1 ht with h12 | h3
  · rcases List.mem_append.1 h12 with h1 | h2
    · split at h1 <;> simp_all
    · split at h2 <;> simp_all
  · split at h3
    · split at h3 <;> simp_all
    · simp_all

/-- The string `MACRO_DETECTED` starts every `macroTag`. -/
theorem macroTag_starts (s : String) :
    isPrefixL "MACRO_DETECTED".toList (macroTag s).toList = true := by
  show isPrefixL ("MACRO_DETECTED" : String).data (macroTag s).data = true
  have hsplit : ("MACRO_DETECTED: Suspicious macro or script detected (" : String).data =
      ("MACRO_DETECTED" : String).data ++
        (": Suspicious macro or script detected (" : String).data := by decide
  unfold macroTag
  rw [String.data_append, String.data_append, hsplit, List.append_assoc,
    List.append_assoc]
  exact isPrefixL_self_append _ _

/-- None of the other tag families starts with `MACRO_DETECTED`. -/
theorem fixed_tags_not_macro :
    ∀ t ∈ suspiciousPatternList.map (fun p => suspTag p.1) ++
        [highRiskTag, execTag, sizeAnomalyTag, stegoTag],
      isPrefixL "MACRO_DETECTED".toList t.toList = false := by
  decide

theorem macroTag_inj {a b : String} (h : macroTag a = macroTag b) : a = b := by
  unfold macroTag at h
  have hd := congrArg String.data h
  rw [String.data_append, String.data_append, String.data_append,
    String.data_append, List.append_assoc, List.append_assoc] at hd
  exact String.ext (List.append_cancel_right (List.append_cancel_left hd))

/-- C9 (amended): the macro check runs iff the declared type is
`application/pdf` or the raw bytes contain the *lowercase* byte sequences
`macro`/`script` (`Buffer.includes` is case-sensitive, unlike the claim's
case-insensitive reading); when it runs, the `MACRO_DETECTED` tags in the
scan output are exactly `checkForMacros`' output, which contains the tag
naming pattern `p` iff `p` matches the lowercased decoded text. -/
theorem macro_check_gate_and_tags :
    (∀ (mime : String) (buf : List Nat),
      isPotentialMacroDocument mime buf = true ↔
        (mime = "application/pdf" ∨ (∃ s t, s ++ strBytes "macro" ++ t = buf) ∨
         (∃ s t, s ++ strBytes "script" ++ t = buf))) ∧
    (∀ (mime f : String) (buf : List Nat),
      (scanFile buf f mime).threats.filter
          (fun t => isPrefixL "MACRO_DETECTED".toList t.toList) =
        (if isPotentialMacroDocument mime buf then checkForMacros buf else [])) ∧
    (∀ (buf : List Nat) (p : MacroPattern), p ∈ macroPatterns →
      (macroTag p.src ∈ checkForMacros buf ↔ p.hits (lowerContent buf) = true)) := by
  refine ⟨?_, ?_, ?_⟩
  · intro mime buf
    simp [isPotentialMacroDocument, containsSeq_iff, or_assoc]
  · intro mime f buf
    have hthreats : (scanFile buf f mime).threats = scanBody buf f mime := rfl
    rw [hthreats]
    unfold scanBody
    rw [List.filter_append, List.filter_append, List.filter_append]
    have hsig : (checkFileSignatures buf).filter
        (fun t => isPrefixL "MACRO_DETECTED".toList t.toList) = [] := by
      rw [List.filter_eq_nil_iff]
      intro t ht
      rw [checkFileSignatures_tags_mem buf t ht]
      simp only [Bool.not_eq_true]
      exact fixed_tags_not_macro execTag (by decide)
    have hsusp : (checkSuspiciousPatterns buf).filter
        (fun t => isPrefixL "MACRO_DETECTED".toList t.toList) = [] := by
      rw [List.filter_eq_nil_iff]
      intro t ht
      simp only [Bool.not_eq_true]
      refine fixed_tags_not_macro t ?_
      rcases List.mem_append.1 (checkSuspiciousPatterns_tags_mem buf t ht) with h | h
      · exact List.mem_append_left _ h
      · exact List.mem_append_right _ (by simp_all)
    have hsize : (checkFileSizeAnomalies buf mime).filter
        (fun t => isPrefixL "MACRO_DETECTED".toList t.toList) = [] := by
      rw [List.filter_eq_nil_iff]
      intro t ht
      simp only [Bool.not_eq_true]
      refine fixed_tags_not_macro t ?_
      have := checkFileSizeAnomalies_tags_mem buf mime t ht
      exact List.mem_append_right _ (by simp_all)
    have hmac : (if isPotentialMacroDocument mime buf then checkForMacros buf
        else []).filter (fun t => isPrefixL "MACRO_DETECTED".toList t.toList) =
        (if isPotentialMacroDocument mime buf then checkForMacros buf else []) := by
      split
      · rw [List.filter_eq_self]
        intro t ht
        obtain ⟨p, _, rfl⟩ := List.mem_map.1 (checkForMacros_tags_mem buf t ht)
        exact macroTag_starts p.src
      · rfl
    rw [hsig, hsusp, hsize, hmac]
    simp
  · intro buf p hp
    constructor
    · intro hmem
      simp only [checkForMacros] at hmem
      obtain ⟨q, hq, hfq⟩ := List.mem_filterMap.1 hmem
      by_cases hb : q.hits (lowerContent buf) = true
      · rw [if_pos hb] at hfq
        have hsrc : q.src = p.src := macroTag_inj (Option.some.inj hfq)
        have hnd : (macroPatterns.map fun r => r.src).Nodup := by decide
        have hqp : q = p := List.inj_on_of_nodup_map hnd hq hp hsrc
        rw [← hqp]
        exact hb
      · rw [if_neg hb] at hfq
        exact absurd hfq (by simp)
    · intro hhits
      simp only [checkForMacros]
      exact List.mem_filterMap.2 ⟨p, hp, by rw [if_pos hhits]⟩

theorem macro_check_gate_and_tags_witness :
    (⟨"vbscript", containsSeq "vbscript".toList⟩ : MacroPattern) ∈ macroPatterns ∧
    (macroTag "vbscript" ∈ checkForMacros (strBytes "vbscript payload") ↔
      containsSeq "vbscript".toList (lowerContent (strBytes "vbscript payload")) = true) := by
  have hmem : (⟨"vbscript", containsSeq "vbscript".toList⟩ : MacroPattern) ∈ macroPatterns := by
    simp [macroPatterns]
  exact ⟨hmem, macro_check_gate_and_tags.2.2 (strBytes "vbscript payload") _ hmem⟩

/-! ### C10 — amount truncation on ungrouped long integer parts -/

/-- C10: the number pattern accepts only 1–3 digits before the first
separator group, so on "Total: $1234.56" the parser returns currency `USD`
and the truncated amount `123`, not `1234.56`. -/
theorem parse_truncates_long_integer_part :
    parseInvoiceAC "Total: $1234.56".toList =
      ⟨some "123".toList, some "USD".toList⟩ ∧
    (parseInvoiceAC "Total: $1234.56".toList).amount ≠ some "1234.56".toList := by
  decide

end OpSync

